import Mathlib

/-!
Shallow embedding of the go-neaktor-api client library (Go) in Lean 4,
together with the verification of the specification claims about it.

Conventions used throughout:
* Go `time.Time` values are modelled as `Nat` instants; `time.Now().Before(t)`
  becomes `now < t`.
* Go maps (`map[string]V`) are modelled as association lists
  `List (String × V)` with `mapFind` / `mapErase` / `mapInsert`: a Go map
  insert overwrites the previous binding for the key.
* Remote calls are modelled by passing the already-decoded response body as
  an explicit oracle argument; each operation returns, besides its result,
  the updated cache state, the number of network fetches it issued and the
  number of units it took from the rate limiter.  Transport failures,
  HTTP >= 500 responses and JSON decode failures abort before the paths the
  claims are about and are kept only where a claim depends on them
  (`RefreshToken`, `UpdateFields`, `AddComment` carry the status code).
* Go `interface{}` field values are modelled by the variant type `FieldValue`.
-/

namespace Neaktor

/-- Association-list lookup, modelling a read `m[k]` of a Go `map[string]V`. -/
def mapFind (m : List (String × α)) (k : String) : Option α :=
  (m.find? (fun p => p.1 == k)).map (fun p => p.2)

/-- Association-list removal, modelling Go `delete(m, k)`. -/
def mapErase (m : List (String × α)) (k : String) : List (String × α) :=
  m.filter (fun p => !(p.1 == k))

/-- Association-list overwrite, modelling a Go map assignment `m[k] = v`. -/
def mapInsert (m : List (String × α)) (k : String) (v : α) : List (String × α) :=
  mapErase m k ++ [(k, v)]

/-- Case folding for a single character: ASCII `A`-`Z` and Cyrillic `А`-`Я`
(plus `Ё`), the only letter ranges appearing in this code base.  On these
ranges it agrees with Go's Unicode simple folding. -/
def foldChar (c : Char) : Char :=
  if 'A' ≤ c ∧ c ≤ 'Z' then Char.ofNat (c.toNat + 32)
  else if 'А' ≤ c ∧ c ≤ 'Я' then Char.ofNat (c.toNat + 32)
  else if c = 'Ё' then 'ё'
  else c

/-- Model of Go `strings.EqualFold` (case-insensitive string equality). -/
def eqFold (s t : String) : Bool :=
  s.data.map foldChar == t.data.map foldChar

/-- Ceiling division; `int(math.Ceil(float64(a) / float64(b)))` in the Go
source computes exactly this for the totals that fit in a float64 mantissa. -/
def ceilDiv (a b : Nat) : Nat :=
  (a + b - 1) / b

/-- The error taxonomy of the library: one constructor per sentinel `errors.New`
variable, plus transport-level failures, the date-parse abort of the task
conversions (`fmt.Errorf("task ... parse error: %w", err)`) and the Go panic
of a failed `.(string)` type assertion (`nonStringValue`).  The five
classified codes carry the wire `message` they wrap
(`fmt.Errorf("%w: %s", ErrCodeNNN, message)`). -/
inductive NError where
  | code403 (message : String)
  | code404 (message : String)
  | code422 (message : String)
  | code429 (message : String)
  | code500 (message : String)
  | codeUnknown
  | apiTokenIncorrect
  | modelNotFound
  | modelStatusNotFound
  | modelFieldNotFound
  | customFieldOptionNotFound
  | customFieldValueNotFound
  | assigneeNotFound
  | taskNotFound
  | taskFieldNotFound
  | dateParseError
  | serviceUnavailable (statusCode : Nat)
  | nonStringValue
  deriving DecidableEq, Repr

/-- Message string of `ErrCode403 = errors.New("403")`. -/
def errCode403Text : String := "403"

/-- Message string of `ErrCode404 = errors.New("404")`. -/
def errCode404Text : String := "404"

/-- Message string of `ErrCode422 = errors.New("422")`. -/
def errCode422Text : String := "422"

/-- Message string of `ErrCode429 = errors.New("429 TOO_MANY_REQUESTS")`
(the source comments: "This and below not typo error"). -/
def errCode429Text : String := "429 TOO_MANY_REQUESTS"

/-- Message string of `ErrCode500 = errors.New("500 INTERNAL_SERVER_ERROR")`. -/
def errCode500Text : String := "500 INTERNAL_SERVER_ERROR"

/-- Embedding of `parseErrorCode(code, message)`: five case-insensitive
comparisons of the wire code against the sentinel error texts, in source
order (403, 404, 429, 422, 500), else the bare unknown error. -/
def parseErrorCode (code message : String) : NError :=
  if eqFold code errCode403Text then .code403 message
  else if eqFold code errCode404Text then .code404 message
  else if eqFold code errCode429Text then .code429 message
  else if eqFold code errCode422Text then .code422 message
  else if eqFold code errCode500Text then .code500 message
  else .codeUnknown

/-- Static per-model field definition (`ModelField{Id, Name, State}`). -/
structure ModelField where
  id : String
  name : String
  state : String
  deriving DecidableEq, Repr

/-- Static per-model status definition (`ModelStatus{Id, Name, Closed, Type}`). -/
structure ModelStatus where
  id : String
  name : String
  closed : Bool
  typeOf : String
  deriving DecidableEq, Repr

/-- The static part of a `Model`: identity plus its status / field maps, both
keyed by the server id (the dynamic caches live in `ModelState` below, since
the Lean embedding passes state explicitly). -/
structure Model where
  id : String
  statuses : List (String × ModelStatus)
  fields : List (String × ModelField)
  deriving DecidableEq, Repr

/-- Embedding of `Model.GetStatus(title)`: linear scan over the status map's
values, case-insensitive match on the name.  Go map iteration order is
unspecified; this embedding fixes insertion order, and theorems about it only
state order-independent facts. -/
def Model.getStatus (m : Model) (title : String) : Except NError ModelStatus :=
  match m.statuses.find? (fun p => eqFold p.2.name title) with
  | some p => .ok p.2
  | none => .error .modelStatusNotFound

/-- Embedding of `Model.GetField(title)`: linear scan over the field map's
values, case-insensitive match on the name. -/
def Model.getField (m : Model) (title : String) : Except NError ModelField :=
  match m.fields.find? (fun p => eqFold p.2.name title) with
  | some p => .ok p.2
  | none => .error .modelFieldNotFound

/-- One entry of the client's model cache (`ModelCache{lastUpdatedAt, model}`). -/
structure ModelCache where
  lastUpdatedAt : Nat
  model : Model
  deriving DecidableEq, Repr

/-- The cache TTL, `MODEL_CACHE_TIME = time.Minute * 30`, in seconds. -/
def modelCacheTime : Nat := 30 * 60

/-- Field entry of a `/v1/taskmodels` listing item. -/
structure TaskModelItemField where
  id : String
  name : String
  state : String
  deriving DecidableEq, Repr

/-- Status entry of a `/v1/taskmodels` listing item. -/
structure TaskModelItemStatus where
  id : String
  name : String
  closed : Bool
  typeOf : String
  deriving DecidableEq, Repr

/-- One `data` item of the `/v1/taskmodels` listing response (the fields the
code reads: id, name, fields, statuses). -/
structure TaskModelItem where
  id : String
  name : String
  fields : List TaskModelItemField
  statuses : List TaskModelItemStatus
  deriving DecidableEq, Repr

/-- Decoded `/v1/taskmodels` response body: the data array plus the embedded
error envelope fields the code reads (`Code`, `Message`). -/
structure TaskModelResponse where
  data : List TaskModelItem
  code : String
  message : String
  deriving DecidableEq, Repr

/-- Construction of a `Model` from one listing item, as in the body of the
`for _, item := range taskModelResponse.Data` loop of `GetModelByTitle`:
status and field maps are keyed by the server id. -/
def modelOfItem (item : TaskModelItem) : Model :=
  { id := item.id
    statuses := item.statuses.foldl
      (fun acc s => mapInsert acc s.id ⟨s.id, s.name, s.closed, s.typeOf⟩) []
    fields := item.fields.foldl
      (fun acc f => mapInsert acc f.id ⟨f.id, f.name, f.state⟩) [] }

deriving instance DecidableEq for Except

/-- Outcome of a `GetModelByTitle` run: the returned value or error, the
final model cache, the number of network fetches issued and the number of
rate-limiter units taken. -/
structure GetModelResult where
  result : Except NError Model
  cache : List (String × ModelCache)
  fetches : Nat
  takes : Nat
  deriving DecidableEq, Repr

/-- The fetch phase of `GetModelByTitle` (the code after `// request second`):
one `apiLimiter.Take()`, one GET of the full listing, the envelope check, the
loop caching a `Model` for every listing item under its name, then the second
cache probe; `MODEL_NOT_FOUND` if the title is still absent. -/
def getModelFetch (now : Nat) (cache : List (String × ModelCache))
    (resp : TaskModelResponse) (title : String) : GetModelResult :=
  if resp.code.length > 0 then
    ⟨.error (parseErrorCode resp.code resp.message), cache, 1, 1⟩
  else
    let cache' := resp.data.foldl
      (fun acc item => mapInsert acc item.name ⟨now, modelOfItem item⟩) cache
    match mapFind cache' title with
    | some cached => ⟨.ok cached.model, cache', 1, 1⟩
    | none => ⟨.error .modelNotFound, cache', 1, 1⟩

/-- Embedding of `Neaktor.GetModelByTitle(title)` (the variant that caches
every listed model and re-probes, src/unnamed/part_001 lines 590-703): a live
cache entry for `title` is returned immediately with no fetch and no limiter
take; an expired entry is deleted before falling through to the fetch phase.
The oracle `resp` stands for the decoded response of the single
`/v1/taskmodels?size=100` GET the fetch phase performs. -/
def getModelByTitle (now : Nat) (cache : List (String × ModelCache))
    (resp : TaskModelResponse) (title : String) : GetModelResult :=
  match mapFind cache title with
  | some cached =>
    if now < cached.lastUpdatedAt + modelCacheTime then
      ⟨.ok cached.model, cache, 0, 0⟩
    else
      getModelFetch now (mapErase cache title) resp title
  | none => getModelFetch now cache resp title

/-- One cached custom-field option (`CustomFieldOption{id, value}`). -/
structure CustomFieldOption where
  id : String
  value : String
  deriving DecidableEq, Repr

/-- One entry of a model's custom-field cache
(`ModelCustomFieldCache{lastUpdatedAt, customFieldOptions}`). -/
structure ModelCustomFieldCache where
  lastUpdatedAt : Nat
  customFieldOptions : List CustomFieldOption
  deriving DecidableEq, Repr

/-- A routing assignee (`ModelAssignee{id, name, typeOf}`). -/
structure ModelAssignee where
  id : Int
  name : String
  typeOf : String
  deriving DecidableEq, Repr

/-- One entry of a model's assignee cache
(`ModelAssigneeCache{lastUpdatedAt, modelAssignees}`). -/
structure ModelAssigneeCache where
  lastUpdatedAt : Nat
  modelAssignees : List ModelAssignee
  deriving DecidableEq, Repr

/-- One element of the `/v1/customfields/{id}` response array: the embedded
envelope fields plus the available values list the code reads.  The envelope
check on this response is commented out in the source. -/
structure CustomFieldsResponse where
  code : String
  message : String
  availableValues : List CustomFieldOption
  deriving DecidableEq, Repr

/-- Outcome of a custom-field lookup: result, final custom-field cache,
network fetches issued, limiter units taken. -/
structure CustomFieldLookupResult where
  result : Except NError String
  cache : List (String × ModelCustomFieldCache)
  fetches : Nat
  takes : Nat
  deriving DecidableEq, Repr

/-- The fetch phase shared by `GetCustomFieldOptionId` and
`GetCustomFieldValue` (the code after `// request second`): one GET of
`/v1/customfields/{field.Id}` — with no `apiLimiter.Take()` in the source —
no envelope check (it is commented out), then every response element
overwrites the cache entry for `field.Id` wholesale. -/
def customFieldFetch (now : Nat) (cache : List (String × ModelCustomFieldCache))
    (resp : List CustomFieldsResponse) (fieldId : String) :
    List (String × ModelCustomFieldCache) :=
  resp.foldl
    (fun acc cf => mapInsert acc fieldId ⟨now, cf.availableValues⟩) cache

/-- The fetch-and-retry phase of `Model.GetCustomFieldOptionId` (the code
after `// request second`): the `customFieldFetch` GET — with no
`apiLimiter.Take()` and no envelope check in the source — then the second
cache probe scanning for the value;
`MODEL_CUSTOM_FIELD_OPTION_NOT_FOUND` if still absent. -/
def getCustomFieldOptionIdFetch (now : Nat)
    (cache0 : List (String × ModelCustomFieldCache))
    (resp : List CustomFieldsResponse) (fieldId value : String) :
    CustomFieldLookupResult :=
  let cache' := customFieldFetch now cache0 resp fieldId
  match mapFind cache' fieldId with
  | some cached =>
    match cached.customFieldOptions.find? (fun o => o.value == value) with
    | some opt => ⟨.ok opt.id, cache', 1, 0⟩
    | none => ⟨.error .customFieldOptionNotFound, cache', 1, 0⟩
  | none => ⟨.error .customFieldOptionNotFound, cache', 1, 0⟩

/-- Embedding of `Model.GetCustomFieldOptionId(field, value)`: a live cache
entry is scanned for an option whose value matches; a hit returns its id with
no fetch.  If the entry is absent, expired, or lacks the value, the entry is
deleted (when present) and the fetch-and-retry phase runs. -/
def getCustomFieldOptionId (now : Nat)
    (cache : List (String × ModelCustomFieldCache))
    (resp : List CustomFieldsResponse) (field : ModelField) (value : String) :
    CustomFieldLookupResult :=
  match mapFind cache field.id with
  | some cached =>
    if now < cached.lastUpdatedAt + modelCacheTime then
      match cached.customFieldOptions.find? (fun o => o.value == value) with
      | some opt => ⟨.ok opt.id, cache, 0, 0⟩
      | none => getCustomFieldOptionIdFetch now (mapErase cache field.id) resp field.id value
    else getCustomFieldOptionIdFetch now (mapErase cache field.id) resp field.id value
  | none => getCustomFieldOptionIdFetch now cache resp field.id value

/-- The fetch-and-retry phase of `Model.GetCustomFieldValue`: like
`getCustomFieldOptionIdFetch` but the second probe scans by option id and
returns the display value; `MODEL_CUSTOM_FIELD_VALUE_NOT_FOUND` if still
absent.  Again no limiter take and no envelope check in the source. -/
def getCustomFieldValueFetch (now : Nat)
    (cache0 : List (String × ModelCustomFieldCache))
    (resp : List CustomFieldsResponse) (fieldId optionId : String) :
    CustomFieldLookupResult :=
  let cache' := customFieldFetch now cache0 resp fieldId
  match mapFind cache' fieldId with
  | some cached =>
    match cached.customFieldOptions.find? (fun o => o.id == optionId) with
    | some opt => ⟨.ok opt.value, cache', 1, 0⟩
    | none => ⟨.error .customFieldValueNotFound, cache', 1, 0⟩
  | none => ⟨.error .customFieldValueNotFound, cache', 1, 0⟩

/-- Embedding of `Model.GetCustomFieldValue(field, optionId)`: the mirror
lookup of `getCustomFieldOptionId`, scanning the same cache by option id and
returning the display value. -/
def getCustomFieldValue (now : Nat)
    (cache : List (String × ModelCustomFieldCache))
    (resp : List CustomFieldsResponse) (field : ModelField) (optionId : String) :
    CustomFieldLookupResult :=
  match mapFind cache field.id with
  | some cached =>
    if now < cached.lastUpdatedAt + modelCacheTime then
      match cached.customFieldOptions.find? (fun o => o.id == optionId) with
      | some opt => ⟨.ok opt.value, cache, 0, 0⟩
      | none => getCustomFieldValueFetch now (mapErase cache field.id) resp field.id optionId
    else getCustomFieldValueFetch now (mapErase cache field.id) resp field.id optionId
  | none => getCustomFieldValueFetch now cache resp field.id optionId

/-- One element of the `/v1/taskmodels/{modelId}/{statusId}/routings`
response array: the target status `to` and its assignees. -/
structure RoutingResponse where
  code : String
  message : String
  toStatus : String
  assignees : List ModelAssignee
  deriving DecidableEq, Repr

/-- Outcome of a `GetAssignee` run. -/
structure AssigneeLookupResult where
  result : Except NError ModelAssignee
  cache : List (String × ModelAssigneeCache)
  fetches : Nat
  takes : Nat
  deriving DecidableEq, Repr

/-- The fetch-and-retry phase of `Model.GetAssignee` (the code after
`// request second`): one GET of the routing rules — again with no
`apiLimiter.Take()` and no envelope check in the source — caching the
assignees of every routing in the response under its `to` status, then the
second cache probe scanning by assignee name;
`MODEL_ASSIGNEE_NOT_FOUND` if still absent. -/
def getAssigneeFetch (now : Nat) (cache0 : List (String × ModelAssigneeCache))
    (resp : List RoutingResponse) (statusId name : String) :
    AssigneeLookupResult :=
  let cache' := resp.foldl
    (fun acc routing => mapInsert acc routing.toStatus ⟨now, routing.assignees⟩) cache0
  match mapFind cache' statusId with
  | some cached =>
    match cached.modelAssignees.find? (fun a => a.name == name) with
    | some assignee => ⟨.ok assignee, cache', 1, 0⟩
    | none => ⟨.error .assigneeNotFound, cache', 1, 0⟩
  | none => ⟨.error .assigneeNotFound, cache', 1, 0⟩

/-- Embedding of `Model.GetAssignee(status, name)`: the same two-phase
cache/fetch/retry pattern as the custom-field lookups, keyed by `status.Id`. -/
def getAssignee (now : Nat) (cache : List (String × ModelAssigneeCache))
    (resp : List RoutingResponse) (status : ModelStatus) (name : String) :
    AssigneeLookupResult :=
  match mapFind cache status.id with
  | some cached =>
    if now < cached.lastUpdatedAt + modelCacheTime then
      match cached.modelAssignees.find? (fun a => a.name == name) with
      | some assignee => ⟨.ok assignee, cache, 0, 0⟩
      | none => getAssigneeFetch now (mapErase cache status.id) resp status.id name
    else getAssigneeFetch now (mapErase cache status.id) resp status.id name
  | none => getAssigneeFetch now cache resp status.id name

/-- The mutable client state the token-refresh claims are about. -/
structure ClientState where
  token : String
  deriving DecidableEq, Repr

/-- Decoded `/oauth/token` response: the HTTP status code, the embedded error
envelope fields and the `access_token` the code reads. -/
structure OauthTokenResponse where
  statusCode : Nat
  code : String
  message : String
  accessToken : String
  deriving DecidableEq, Repr

/-- Embedding of `Neaktor.RefreshToken` in the HttpRunner variant
(src/unnamed/part_001 lines 544-588).  Note that this variant calls
`parseErrorCode(...)` on a non-empty envelope code but DISCARDS the result —
the statement at lines 577-579 has no `return` — so control falls through to
the access-token check and, when the token is non-empty, to the assignment
`n.token = "Bearer " + ...`. -/
def refreshTokenRunner (st : ClientState) (resp : OauthTokenResponse) :
    Except NError Unit × ClientState :=
  if resp.statusCode ≥ 500 then
    (.error (.serviceUnavailable resp.statusCode), st)
  else
    -- if len(oauthTokenResponse.Code) > 0 { parseErrorCode(...) } : no effect
    if resp.accessToken.length ≤ 0 then
      (.error .apiTokenIncorrect, st)
    else
      (.ok (), { st with token := "Bearer " ++ resp.accessToken })

/-- Embedding of `Neaktor.RefreshToken` in the requests variant
(src/unnamed/part_001 lines 291-337), which RETURNS the classified error on a
non-empty envelope code. -/
def refreshTokenRequests (st : ClientState) (resp : OauthTokenResponse) :
    Except NError Unit × ClientState :=
  if resp.statusCode ≥ 500 then
    (.error (.serviceUnavailable resp.statusCode), st)
  else if resp.code.length > 0 then
    (.error (parseErrorCode resp.code resp.message), st)
  else if resp.accessToken.length ≤ 0 then
    (.error .apiTokenIncorrect, st)
  else
    (.ok (), { st with token := "Bearer " ++ resp.accessToken })

/-- Variant type for the dynamically typed Go field value (`interface{}`). -/
inductive FieldValue where
  | str (s : String)
  | num (n : Int)
  | nul
  deriving DecidableEq, Repr

/-- A field instance attached to a task (`TaskField{ModelField, Value, State}`). -/
structure TaskField where
  modelField : ModelField
  value : FieldValue
  state : String
  deriving DecidableEq, Repr

/-- A fetched task's state (`Task` of src/unnamed/part_002); the owning model
pointer is replaced by explicit state passing, dates are `Nat` instants. -/
structure Task where
  status : ModelStatus
  id : Int
  idx : String
  startDate : Nat
  endDate : Nat
  statusClosedDate : Nat
  fields : List TaskField
  deriving DecidableEq, Repr

/-- Embedding of `Task.GetField(modelField)`: linear scan of the task's field
list by model-field id; `TASK_FIELD_NOT_FOUND` if absent. -/
def Task.getField (t : Task) (modelField : ModelField) :
    Except NError TaskField :=
  match t.fields.find? (fun f => f.modelField.id == modelField.id) with
  | some field => .ok field
  | none => .error .taskFieldNotFound

/-- Outcome of a `Task.GetCustomField` run: the result, the task as the call
leaves it, the final custom-field cache and the fetch count. -/
structure GetCustomFieldResult where
  result : Except NError TaskField
  task : Task
  cache : List (String × ModelCustomFieldCache)
  fetches : Nat
  deriving DecidableEq, Repr

/-- Embedding of `Task.GetCustomField(modelField)` (src/unnamed/part_002
lines 114-128): the matching field is found, its raw stored value is asserted
to be a string (`field.Value.(string)`; a non-string value panics in Go,
modelled as the `nonStringValue` error) and resolved through the owning
model's `GetCustomFieldValue`.  The assignment `field.Value = value` in the
source writes to the `range` loop COPY of the list element, so the task's own
`fields` slice is returned unchanged. -/
def Task.getCustomField (t : Task) (modelField : ModelField) (now : Nat)
    (cache : List (String × ModelCustomFieldCache))
    (resp : List CustomFieldsResponse) : GetCustomFieldResult :=
  match t.fields.find? (fun f => f.modelField.id == modelField.id) with
  | some field =>
    match field.value with
    | .str raw =>
      let r := getCustomFieldValue now cache resp modelField raw
      match r.result with
      | .ok resolved =>
        ⟨.ok { field with value := .str resolved }, t, r.cache, r.fetches⟩
      | .error e => ⟨.error e, t, r.cache, r.fetches⟩
    | _ => ⟨.error .nonStringValue, t, cache, 0⟩
  | none => ⟨.error .taskFieldNotFound, t, cache, 0⟩

/-- One `{id, value}` entry of the `UpdateFields` request payload
(`UpdateTaskRequestField`). -/
structure UpdateTaskRequestField where
  id : String
  value : FieldValue
  deriving DecidableEq, Repr

/-- The payload construction loop of `Task.UpdateFields`: starting from an
empty slice, each supplied field appends `{Id: field.ModelField.Id, Value:
field.Value}`. -/
def updateTaskRequestFields (fields : List TaskField) :
    List UpdateTaskRequestField :=
  fields.foldl
    (fun acc field => acc ++ [⟨field.modelField.id, field.value⟩]) []

/-- Decoded response of a task mutation call: status code plus the envelope
fields the code reads. -/
structure MutationResponse where
  statusCode : Nat
  code : String
  message : String
  deriving DecidableEq, Repr

/-- Outcome of a `Task.UpdateFields` run: result, the payload entries the
request carried, and the limiter units taken. -/
structure UpdateFieldsResult where
  result : Except NError Unit
  payload : List UpdateTaskRequestField
  takes : Nat
  deriving DecidableEq, Repr

/-- Embedding of `Task.UpdateFields(fields)` (src/unnamed/part_002 lines
140-210): one `apiLimiter.Take()`, the payload built by
`updateTaskRequestFields`, a PUT of it, the >= 500 check and the envelope
check; the task's own fields are not touched. -/
def Task.updateFields (_t : Task) (fields : List TaskField)
    (resp : MutationResponse) : UpdateFieldsResult :=
  let payload := updateTaskRequestFields fields
  if resp.statusCode ≥ 500 then
    ⟨.error (.serviceUnavailable resp.statusCode), payload, 1⟩
  else if resp.code.length > 0 then
    ⟨.error (parseErrorCode resp.code resp.message), payload, 1⟩
  else
    ⟨.ok (), payload, 1⟩

/-- Outcome of a `Task.AddComment` run. -/
structure AddCommentResult where
  result : Except NError Unit
  takes : Nat
  deriving DecidableEq, Repr

/-- Embedding of `Task.AddComment(message)` (src/unnamed/part_002 lines
283-329): a POST of `{text: message}` to `/v1/comments/{id}` with NO
`apiLimiter.Take()` in the source, then the >= 500 and envelope checks. -/
def Task.addComment (_t : Task) (_message : String) (resp : MutationResponse) :
    AddCommentResult :=
  if resp.statusCode ≥ 500 then
    ⟨.error (.serviceUnavailable resp.statusCode), 0⟩
  else if resp.code.length > 0 then
    ⟨.error (parseErrorCode resp.code resp.message), 0⟩
  else
    ⟨.ok (), 0⟩

/-- The rows a consistent remote side (no duplicate or missing items) returns
for page `page` of a listing whose full result set is `data`, at the page
size 50 used by the task listings. -/
def serverPage (data : List α) (page : Nat) : List α :=
  (data.drop (50 * page)).take 50

/-- Embedding of the pagination loop of `Model.GetTasksByStatus`
(`for page := 0; page < maxPages; page++`): each iteration takes one limiter
unit, fetches one page, appends its rows and recomputes
`maxPages = int(math.Ceil(float64(total) / float64(limit)))`.  The loop is
entered with `maxPages = 1`.  Result: (pages fetched, concatenated rows);
the per-row `Task` conversion is orthogonal to the pagination claims and the
rows are returned as-is. -/
def getTasksByStatusLoop (data : List α) (page maxPages : Nat) :
    Nat × List α :=
  if _h : page < maxPages then
    let items := serverPage data page
    let rest := getTasksByStatusLoop data (page + 1) (ceilDiv data.length 50)
    (rest.1 + 1, items ++ rest.2)
  else
    (0, [])
termination_by max maxPages (ceilDiv data.length 50) + ceilDiv data.length 50 - page
decreasing_by omega

/-- Embedding of `Model.GetTasksByStatus` seen from the pagination loop:
`limit := 50; maxPages := 1` then the loop from page 0. -/
def getTasksByStatus (data : List α) : Nat × List α :=
  getTasksByStatusLoop data 0 1

/-- Embedding of the pagination loop shared by
`Model.GetTasksByStatusAndFields` and `Model.GetTasksByFields`: each
iteration takes one limiter unit, fetches one page and appends its rows; it
breaks when `total < 50`, or when
`float64(page) >= math.Ceil(float64(total/50))` — note the truncating
integer division `total/50` INSIDE the ceiling — and otherwise increments
the page. -/
def filteredTasksLoop (data : List α) (page : Nat) : Nat × List α :=
  let items := serverPage data page
  if data.length < 50 then (1, items)
  else if _h : data.length / 50 ≤ page then (1, items)
  else
    let rest := filteredTasksLoop data (page + 1)
    (rest.1 + 1, items ++ rest.2)
termination_by data.length / 50 - page

/-- Embedding of `Model.GetTasksByStatusAndFields` seen from its pagination
loop (the field-filter query string does not affect pagination). -/
def getTasksByStatusAndFields (data : List α) : Nat × List α :=
  filteredTasksLoop data 0

/-- Embedding of `Model.GetTasksByFields` seen from its pagination loop. -/
def getTasksByFields (data : List α) : Nat × List α :=
  filteredTasksLoop data 0

/-- Outcome of a `Task.UpdateStatus` run: result, the status id the request
carried, and the limiter units taken. -/
structure UpdateStatusResult where
  result : Except NError Unit
  statusSent : String
  takes : Nat
  deriving DecidableEq, Repr

/-- Embedding of `Task.UpdateStatus(status)` (src/unnamed/part_002 lines
219-274): one `apiLimiter.Take()`, a POST of `{status: status.Id}` to
`/v1/tasks/{id}/status/change`, the >= 500 check and the envelope check; the
task is not touched locally. -/
def Task.updateStatus (_t : Task) (status : ModelStatus)
    (resp : MutationResponse) : UpdateStatusResult :=
  if resp.statusCode ≥ 500 then
    ⟨.error (.serviceUnavailable resp.statusCode), status.id, 1⟩
  else if resp.code.length > 0 then
    ⟨.error (parseErrorCode resp.code resp.message), status.id, 1⟩
  else
    ⟨.ok (), status.id, 1⟩

/-- One field entry of a decoded `/v1/tasks/{id}` row (`TaskResponseField`
in the source); `FieldValue.nul` models a JSON `null` (Go `nil`
`interface{}`).  Like the source struct, a row carries NO envelope fields:
`TaskResponse` embeds no `NeaktorErrorResponse`. -/
structure TaskRowField where
  id : String
  value : FieldValue
  state : String
  deriving DecidableEq, Repr

/-- One decoded row of the `/v1/tasks/{id}` singleton-array response (the
fields of `TaskResponse` the code reads: id, idx, status, fields). -/
structure TaskRowResponse where
  id : Int
  idx : String
  status : String
  fields : List TaskRowField
  deriving DecidableEq, Repr

/-- Embedding of `time.Parse("02-01-2006T15:04:05", field.Value.(string))`
on a date field: `time.Parse` is Go-stdlib (an external collaborator, per
the spec), so the parser itself is the oracle `parseTime`; a non-string
value makes the Go type assertion panic (`nonStringValue`), an unparseable
string aborts the call (`dateParseError`). -/
def parseRowDate (parseTime : String → Option Nat) (v : FieldValue) :
    Except NError Nat :=
  match v with
  | .str s =>
    match parseTime s with
    | some t => .ok t
    | none => .error .dateParseError
  | _ => .error .nonStringValue

/-- Embedding of the field loop of `Model.GetTaskById`'s row conversion
(neaktor_model.go lines 1693-1718): the ids `start`, `end` and
`statusClosedDate` (case-insensitively, when the value is non-null) are
parsed as dates — a parse failure aborts the whole call — and every field is
appended as a `TaskField` whose model field is the Go map read
`m.fields[field.Id]` (zero value when absent).  The three id guards are
mutually exclusive, so the sequential `if` blocks of the source are an
`else if` chain here. -/
def convertRowFields (m : Model) (parseTime : String → Option Nat) :
    List TaskRowField → Nat → Nat → Nat → List TaskField →
    Except NError (Nat × Nat × Nat × List TaskField)
  | [], s, e, c, acc => .ok (s, e, c, acc)
  | f :: rest, s, e, c, acc =>
    let taskField : TaskField :=
      ⟨(mapFind m.fields f.id).getD ⟨"", "", ""⟩, f.value, f.state⟩
    if eqFold f.id "start" ∧ f.value ≠ .nul then
      match parseRowDate parseTime f.value with
      | .error err => .error err
      | .ok t => convertRowFields m parseTime rest t e c (acc ++ [taskField])
    else if eqFold f.id "end" ∧ f.value ≠ .nul then
      match parseRowDate parseTime f.value with
      | .error err => .error err
      | .ok t => convertRowFields m parseTime rest s t c (acc ++ [taskField])
    else if eqFold f.id "statusClosedDate" ∧ f.value ≠ .nul then
      match parseRowDate parseTime f.value with
      | .error err => .error err
      | .ok t => convertRowFields m parseTime rest s e t (acc ++ [taskField])
    else
      convertRowFields m parseTime rest s e c (acc ++ [taskField])

/-- Embedding of `Model.GetTaskById`'s conversion of one decoded row to a
`Task` (neaktor_model.go lines 1686-1728): the field loop with date parsing,
then the status resolved by EXACT id equality against the model's status map
(`if status.Id == taskData.Status`, last match wins, zero value when none
matches).  No envelope field is ever consulted — the row has none. -/
def convertTaskRow (m : Model) (parseTime : String → Option Nat)
    (row : TaskRowResponse) : Except NError Task :=
  match convertRowFields m parseTime row.fields 0 0 0 [] with
  | .error e => .error e
  | .ok (s, e, c, fields) =>
    let modelStatus := m.statuses.foldl
      (fun acc p => if p.2.id == row.status then p.2 else acc)
      ⟨"", "", false, ""⟩
    .ok ⟨modelStatus, row.id, row.idx, s, e, c, fields⟩

/-- Outcome of a `Model.GetTaskById` run. -/
structure GetTaskResult where
  result : Except NError Task
  fetches : Nat
  takes : Nat
  deriving DecidableEq, Repr

/-- Embedding of `Model.GetTaskById(id)` (neaktor_model.go lines 1643-1732):
one `apiLimiter.Take()`, one GET of `/v1/tasks/{id}`, the singleton-array
decode — whose row struct embeds no envelope, and whose envelope check at
lines 1682-1684 is commented out — then the conversion of the FIRST row
(the loop returns inside its first iteration); `TASK_NOT_FOUND` on an empty
array. -/
def getTaskById (m : Model) (parseTime : String → Option Nat)
    (resp : List TaskRowResponse) : GetTaskResult :=
  match resp with
  | [] => ⟨.error .taskNotFound, 1, 1⟩
  | row :: _ =>
    match convertTaskRow m parseTime row with
    | .ok task => ⟨.ok task, 1, 1⟩
    | .error e => ⟨.error e, 1, 1⟩

/-- One `{id, value}` entry of the `CreateTask` request payload
(`CreateTaskRequestField`). -/
structure CreateTaskRequestField where
  id : String
  value : FieldValue
  deriving DecidableEq, Repr

/-- The payload construction loop of `Model.CreateTask`: like
`updateTaskRequestFields`, each supplied field appends
`{Id: field.ModelField.Id, Value: field.Value}`. -/
def createTaskRequestFields (fields : List TaskField) :
    List CreateTaskRequestField :=
  fields.foldl
    (fun acc field => acc ++ [⟨field.modelField.id, field.value⟩]) []

/-- The assignee entry of the `CreateTask` request payload
(`CreateTaskRequestAssignee{Id, Type}`). -/
structure CreateTaskRequestAssignee where
  id : Int
  typeOf : String
  deriving DecidableEq, Repr

/-- Decoded `/v1/tasks/{modelId}` creation response: the envelope fields and
the created task id the code reads.  (The source has no >= 500 check here.) -/
structure CreateTaskEnvelope where
  code : String
  message : String
  id : Int
  deriving DecidableEq, Repr

/-- Outcome of a `Model.CreateTask` run: result, the payload the request
carried, and the network/limiter counts of the whole call including the
re-fetch. -/
structure CreateTaskResult where
  result : Except NError Task
  payloadFields : List CreateTaskRequestField
  payloadAssignee : CreateTaskRequestAssignee
  fetches : Nat
  takes : Nat
  deriving DecidableEq, Repr

/-- Embedding of `Model.CreateTask(assignee, fields)` (neaktor_model.go
lines 1734-1803): one `apiLimiter.Take()`, a POST of the assignee + fields
payload, the envelope check (present here), and on success an immediate
re-fetch of the created task through `GetTaskById` — which takes its own
limiter unit; the oracle `taskResp` is the decoded `/v1/tasks/{id}` response
of that re-fetch. -/
def createTask (m : Model) (parseTime : String → Option Nat)
    (assignee : ModelAssignee) (fields : List TaskField)
    (resp : CreateTaskEnvelope) (taskResp : List TaskRowResponse) :
    CreateTaskResult :=
  let payload := createTaskRequestFields fields
  let pa : CreateTaskRequestAssignee := ⟨assignee.id, assignee.typeOf⟩
  if resp.code.length > 0 then
    ⟨.error (parseErrorCode resp.code resp.message), payload, pa, 1, 1⟩
  else
    let r := getTaskById m parseTime taskResp
    ⟨r.result, payload, pa, r.fetches + 1, r.takes + 1⟩

/-- One decoded page of a task-listing response: the rows plus the envelope
fields and the `total` the code reads.  Companion to the slice-oracle
embeddings above (`getTasksByStatusLoop` / `filteredTasksLoop`, used for the
pagination-count claim, which specialize the remote side to consistent
envelope-free pages): this richer oracle carries the envelope, so the same
source loops can also be translated with their per-iteration
`apiLimiter.Take()` and envelope check. -/
structure TasksPageResponse (α : Type) where
  data : List α
  code : String
  message : String
  total : Nat
  deriving DecidableEq, Repr

/-- Outcome of a full task-listing run: the concatenated rows or the first
error, the number of page fetches issued and the limiter units taken. -/
structure TasksRunResult (α : Type) where
  result : Except NError (List α)
  fetches : Nat
  takes : Nat
  deriving DecidableEq, Repr

/-- Embedding of the `Model.GetTasksByStatus` loop over an arbitrary
per-page response oracle: each iteration takes one limiter unit, fetches one
page, returns the classified error as soon as a page carries a non-empty
envelope code, otherwise appends the rows and recomputes
`maxPages = ceil(total/50)` from the CURRENT page's total.  Since the
reported totals may change between pages, the Go loop's iteration count has
no a-priori bound, so the Lean translation is bounded by `fuel` (exiting
like `page >= maxPages` when it runs out); every theorem proved about it
holds for every fuel value. -/
def getTasksByStatusRunLoop (pages : Nat → TasksPageResponse α)
    (page maxPages fuel : Nat) : TasksRunResult α :=
  match fuel with
  | 0 => ⟨.ok [], 0, 0⟩
  | fuel + 1 =>
    if page < maxPages then
      let resp := pages page
      if resp.code.length > 0 then
        ⟨.error (parseErrorCode resp.code resp.message), 1, 1⟩
      else
        let rest := getTasksByStatusRunLoop pages (page + 1)
          (ceilDiv resp.total 50) fuel
        match rest.result with
        | .ok items => ⟨.ok (resp.data ++ items), rest.fetches + 1, rest.takes + 1⟩
        | .error e => ⟨.error e, rest.fetches + 1, rest.takes + 1⟩
    else ⟨.ok [], 0, 0⟩

/-- The `Model.GetTasksByStatus` run from page 0 with `maxPages` seeded
at 1. -/
def getTasksByStatusRun (pages : Nat → TasksPageResponse α) (fuel : Nat) :
    TasksRunResult α :=
  getTasksByStatusRunLoop pages 0 1 fuel

/-- Embedding of the loop shared by `Model.GetTasksByStatusAndFields` and
`Model.GetTasksByFields` over an arbitrary per-page response oracle: each
iteration takes one limiter unit, fetches one page, returns the classified
error on a non-empty envelope code, appends the rows, and breaks when
`total < 50` or `page >= total/50` (truncating division); bounded by `fuel`
like `getTasksByStatusRunLoop`. -/
def filteredTasksRunLoop (pages : Nat → TasksPageResponse α)
    (page fuel : Nat) : TasksRunResult α :=
  match fuel with
  | 0 => ⟨.ok [], 0, 0⟩
  | fuel + 1 =>
    let resp := pages page
    if resp.code.length > 0 then
      ⟨.error (parseErrorCode resp.code resp.message), 1, 1⟩
    else if resp.total < 50 then
      ⟨.ok resp.data, 1, 1⟩
    else if resp.total / 50 ≤ page then
      ⟨.ok resp.data, 1, 1⟩
    else
      let rest := filteredTasksRunLoop pages (page + 1) fuel
      match rest.result with
      | .ok items => ⟨.ok (resp.data ++ items), rest.fetches + 1, rest.takes + 1⟩
      | .error e => ⟨.error e, rest.fetches + 1, rest.takes + 1⟩

/-- The filtered-listing run from page 0. -/
def filteredTasksRun (pages : Nat → TasksPageResponse α) (fuel : Nat) :
    TasksRunResult α :=
  filteredTasksRunLoop pages 0 fuel

/-! ### Helper lemmas about the association-list map operations -/

theorem mapFind_nil (k : String) : mapFind ([] : List (String × α)) k = none :=
  rfl

theorem mapFind_cons (p : String × α) (m : List (String × α)) (k : String) :
    mapFind (p :: m) k = if p.1 = k then some p.2 else mapFind m k := by
  by_cases h : p.1 = k
  · rw [if_pos h]
    unfold mapFind
    rw [List.find?_cons_of_pos _ (by simpa using h)]
    rfl
  · rw [if_neg h]
    unfold mapFind
    rw [List.find?_cons_of_neg _ (by simpa using h)]

theorem mapErase_cons (p : String × α) (m : List (String × α)) (k : String) :
    mapErase (p :: m) k =
      if p.1 = k then mapErase m k else p :: mapErase m k := by
  by_cases h : p.1 = k <;> simp [mapErase, List.filter_cons, h]

theorem mapFind_erase (m : List (String × α)) (k : String) :
    mapFind (mapErase m k) k = none := by
  induction m with
  | nil => rfl
  | cons p m ih =>
    rw [mapErase_cons]
    by_cases h : p.1 = k
    · rw [if_pos h]; exact ih
    · rw [if_neg h, mapFind_cons, if_neg h]; exact ih

theorem mapFind_erase_ne (m : List (String × α)) (k k' : String)
    (h : k' ≠ k) : mapFind (mapErase m k) k' = mapFind m k' := by
  induction m with
  | nil => rfl
  | cons p m ih =>
    rw [mapErase_cons, mapFind_cons]
    by_cases hp : p.1 = k
    · have hp' : ¬ p.1 = k' := by rw [hp]; exact fun hh => h hh.symm
      rw [if_pos hp, if_neg hp']; exact ih
    · rw [if_neg hp, mapFind_cons]
      by_cases hp' : p.1 = k'
      · rw [if_pos hp', if_pos hp']
      · rw [if_neg hp', if_neg hp']; exact ih

theorem mapFind_append (m₁ m₂ : List (String × α)) (k : String) :
    mapFind (m₁ ++ m₂) k = (mapFind m₁ k).or (mapFind m₂ k) := by
  induction m₁ with
  | nil => rfl
  | cons p m ih =>
    rw [List.cons_append, mapFind_cons, mapFind_cons]
    by_cases hp : p.1 = k
    · rw [if_pos hp, if_pos hp]; rfl
    · rw [if_neg hp, if_neg hp]; exact ih

theorem mapFind_insert_self (m : List (String × α)) (k : String) (v : α) :
    mapFind (mapInsert m k v) k = some v := by
  rw [mapInsert, mapFind_append, mapFind_erase]
  rw [mapFind_cons, if_pos rfl]
  rfl

theorem mapFind_insert_ne (m : List (String × α)) (k : String) (v : α)
    (k' : String) (h : k' ≠ k) :
    mapFind (mapInsert m k v) k' = mapFind m k' := by
  rw [mapInsert, mapFind_append, mapFind_erase_ne m k k' h]
  rw [mapFind_cons, if_neg (fun hh => h hh.symm), mapFind_nil]
  cases mapFind m k' <;> rfl

/-- A fold of `mapInsert`s whose keys all differ from `k` leaves the lookup
of `k` unchanged. -/
theorem mapFind_foldl_insert_ne {β : Type} (f : β → String) (g : β → α)
    (data : List β) (k : String) (hk : ∀ b ∈ data, f b ≠ k) :
    ∀ m : List (String × α),
      mapFind (data.foldl (fun acc b => mapInsert acc (f b) (g b)) m) k =
        mapFind m k := by
  induction data with
  | nil => intro m; rfl
  | cons b data ih =>
    intro m
    rw [List.foldl_cons, ih (fun x hx => hk x (List.mem_cons_of_mem b hx)),
      mapFind_insert_ne]
    exact fun hh => hk b (List.mem_cons_self b data) hh.symm

/-! ### Helper lemmas about the payload construction of UpdateFields -/

theorem foldl_append_singleton {β γ : Type} (f : β → γ) :
    ∀ (l : List β) (acc : List γ),
      l.foldl (fun a x => a ++ [f x]) acc = acc ++ l.map f := by
  intro l
  induction l with
  | nil => intro acc; simp
  | cons x l ih => intro acc; simp [ih]

theorem updateTaskRequestFields_eq_map (fields : List TaskField) :
    updateTaskRequestFields fields =
      fields.map (fun f => ⟨f.modelField.id, f.value⟩) := by
  rw [updateTaskRequestFields, foldl_append_singleton]
  rfl

/-! ### Closed forms of the pagination loops -/

theorem getTasksByStatusLoop_const (data : List α) :
    ∀ n p, n = ceilDiv data.length 50 - p →
      getTasksByStatusLoop data p (ceilDiv data.length 50) =
        (ceilDiv data.length 50 - p, data.drop (50 * p)) := by
  intro n
  induction n with
  | zero =>
    intro p hp
    have hC : ceilDiv data.length 50 ≤ p := by omega
    have hlen : data.length ≤ 50 * p := by
      have hc : (data.length + 50 - 1) / 50 ≤ p := hC
      omega
    unfold getTasksByStatusLoop
    rw [dif_neg (by omega)]
    rw [List.drop_eq_nil_of_le hlen]
    rw [Prod.mk.injEq]
    exact ⟨by omega, rfl⟩
  | succ n ih =>
    intro p hp
    have hpC : p < ceilDiv data.length 50 := by
      have hc : (data.length + 50 - 1) / 50 - p = n + 1 := by
        simpa [ceilDiv] using hp.symm
      simp only [ceilDiv]
      omega
    unfold getTasksByStatusLoop
    rw [dif_pos hpC]
    rw [ih (p + 1) (by omega)]
    simp only [serverPage]
    rw [Prod.mk.injEq]
    refine ⟨by omega, ?_⟩
    have h5 : 50 * (p + 1) = 50 * p + 50 := by ring
    rw [h5, ← List.drop_drop, List.take_append_drop]

theorem getTasksByStatus_eq (data : List α) :
    getTasksByStatus data = (max 1 (ceilDiv data.length 50), data) := by
  unfold getTasksByStatus
  unfold getTasksByStatusLoop
  rw [dif_pos (by omega : (0 : Nat) < 1)]
  rw [getTasksByStatusLoop_const data (ceilDiv data.length 50 - 1) 1 rfl]
  simp only [serverPage, Nat.mul_zero, Nat.mul_one, List.drop_zero]
  rw [Prod.mk.injEq]
  refine ⟨by omega, ?_⟩
  exact List.take_append_drop 50 data

theorem filteredTasksLoop_eq (data : List α) :
    ∀ n p, n = data.length / 50 - p → p ≤ data.length / 50 →
      filteredTasksLoop data p =
        (data.length / 50 + 1 - p, data.drop (50 * p)) := by
  intro n
  induction n with
  | zero =>
    intro p hp hple
    have hpeq : p = data.length / 50 := by omega
    unfold filteredTasksLoop
    by_cases hlt : data.length < 50
    · rw [if_pos hlt]
      have hd0 : data.length / 50 = 0 := by omega
      have hp0 : p = 0 := by omega
      subst hp0
      simp only [serverPage, Nat.mul_zero, List.drop_zero]
      rw [List.take_of_length_le (by omega)]
      rw [Prod.mk.injEq]
      exact ⟨by omega, rfl⟩
    · rw [if_neg hlt, dif_pos (by omega : data.length / 50 ≤ p)]
      have htake : (data.drop (50 * p)).take 50 = data.drop (50 * p) := by
        apply List.take_of_length_le
        rw [List.length_drop]
        omega
      simp only [serverPage]
      rw [htake, Prod.mk.injEq]
      exact ⟨by omega, rfl⟩
  | succ n ih =>
    intro p hp hple
    have hplt : p < data.length / 50 := by omega
    have h50 : ¬ data.length < 50 := by
      intro hh
      have : data.length / 50 = 0 := by omega
      omega
    unfold filteredTasksLoop
    rw [if_neg h50, dif_neg (by omega : ¬ data.length / 50 ≤ p)]
    rw [ih (p + 1) (by omega) (by omega)]
    simp only [serverPage]
    rw [Prod.mk.injEq]
    refine ⟨by omega, ?_⟩
    have h5 : 50 * (p + 1) = 50 * p + 50 := by ring
    rw [h5, ← List.drop_drop, List.take_append_drop]

theorem filteredTasks_zero (data : List α) :
    filteredTasksLoop data 0 = (data.length / 50 + 1, data) := by
  rw [filteredTasksLoop_eq data (data.length / 50) 0 rfl (by omega)]
  simp

/-! ### Claim C3: the error classifier -/

/-- C3 (amended): `parseErrorCode` is total and pure; the wire codes `403`,
`404`, `422` and the full sentinel texts `429 TOO_MANY_REQUESTS`,
`500 INTERNAL_SERVER_ERROR` (all compared case-insensitively) map to their
typed sentinel errors wrapping the message; every other code — including the
bare strings `429` and `500` — maps to the generic unknown error, never to a
success value. -/
theorem parseErrorCode_classification :
    (∀ m : String, parseErrorCode "403" m = .code403 m)
    ∧ (∀ m : String, parseErrorCode "404" m = .code404 m)
    ∧ (∀ m : String, parseErrorCode "422" m = .code422 m)
    ∧ (∀ m : String, parseErrorCode "429 TOO_MANY_REQUESTS" m = .code429 m)
    ∧ (∀ m : String, parseErrorCode "500 INTERNAL_SERVER_ERROR" m = .code500 m)
    ∧ (∀ c₁ c₂ m : String, eqFold c₁ c₂ = true →
        parseErrorCode c₁ m = parseErrorCode c₂ m)
    ∧ (∀ c m : String,
        eqFold c errCode403Text = false → eqFold c errCode404Text = false →
        eqFold c errCode429Text = false → eqFold c errCode422Text = false →
        eqFold c errCode500Text = false →
        parseErrorCode c m = .codeUnknown)
    ∧ (∀ c m : String, parseErrorCode c m = .code403 m
        ∨ parseErrorCode c m = .code404 m ∨ parseErrorCode c m = .code429 m
        ∨ parseErrorCode c m = .code422 m ∨ parseErrorCode c m = .code500 m
        ∨ parseErrorCode c m = .codeUnknown) := by
  refine ⟨fun m => rfl, fun m => rfl, fun m => rfl, fun m => rfl, fun m => rfl,
    ?_, ?_, ?_⟩
  · intro c₁ c₂ m h
    have hl : c₁.data.map foldChar = c₂.data.map foldChar := by
      simpa [eqFold] using h
    simp only [parseErrorCode, eqFold, hl]
  · intro c m h1 h2 h3 h4 h5
    unfold parseErrorCode
    rw [h1, h2, h3, h4, h5]
    rfl
  · intro c m
    unfold parseErrorCode
    split_ifs <;> tauto

/-- C3 witness: the theorem applied at concrete codes: a typed mapping,
case-insensitivity at the lowercase spelling of the 429 sentinel text, and
the unknown-code clause at the unrecognized code `999`. -/
theorem parseErrorCode_classification_witness :
    parseErrorCode "403" "forbidden" = .code403 "forbidden"
    ∧ parseErrorCode "429 too_many_requests" "m"
        = parseErrorCode "429 TOO_MANY_REQUESTS" "m"
    ∧ parseErrorCode "999" "strange" = .codeUnknown :=
  ⟨parseErrorCode_classification.1 "forbidden",
   parseErrorCode_classification.2.2.2.2.2.1 "429 too_many_requests"
     "429 TOO_MANY_REQUESTS" "m" (by decide),
   parseErrorCode_classification.2.2.2.2.2.2.1 "999" "strange"
     (by decide) (by decide) (by decide) (by decide) (by decide)⟩

/-- C3 counterexample: the claim says the wire code `429` maps to the typed
429 sentinel; in the code it maps to the generic unknown error, because the
comparison is against the full sentinel text `429 TOO_MANY_REQUESTS`
(likewise for `500`). -/
theorem parseErrorCode_429_bare_unknown :
    parseErrorCode "429" "too many requests" = .codeUnknown
    ∧ parseErrorCode "429" "too many requests" ≠ .code429 "too many requests"
    ∧ parseErrorCode "500" "boom" = .codeUnknown := by
  refine ⟨by decide, by decide, by decide⟩

/-! ### Claim C6: RefreshToken -/

/-- C6: evaluation of both `RefreshToken` variants at the failing input — a
response with HTTP 200, envelope code `404` and a non-empty access token.
The HttpRunner variant (src/unnamed/part_001 lines 544-588) discards the
classifier result and succeeds, overwriting the stored token, which
contradicts the claim; the requests variant (lines 291-337) returns the
classified error and leaves the token unchanged, as the claim states.  The
token-unchanged-on-auth-failure clause of the claim does hold in both
variants, shown at the empty-token input. -/
theorem refreshToken_discarded_classifier :
    refreshTokenRunner ⟨"OLD_TOKEN"⟩ ⟨200, "404", "task not found", "abc"⟩
      = (.ok (), ⟨"Bearer abc"⟩)
    ∧ refreshTokenRequests ⟨"OLD_TOKEN"⟩ ⟨200, "404", "task not found", "abc"⟩
      = (.error (.code404 "task not found"), ⟨"OLD_TOKEN"⟩)
    ∧ refreshTokenRunner ⟨"OLD_TOKEN"⟩ ⟨200, "", "", ""⟩
      = (.error .apiTokenIncorrect, ⟨"OLD_TOKEN"⟩)
    ∧ refreshTokenRequests ⟨"OLD_TOKEN"⟩ ⟨200, "", "", ""⟩
      = (.error .apiTokenIncorrect, ⟨"OLD_TOKEN"⟩) := by
  refine ⟨by decide, by decide, by decide, by decide⟩

/-! ### Claim C2: pagination -/

/-- C2 (amended): against a consistent remote side (pages are the exact
slices of a `total`-element result set, no duplicates or omissions),
`GetTasksByStatus` fetches `max 1 (ceil(total/50))` pages — one page even
when `total = 0` — while `GetTasksByStatusAndFields` and `GetTasksByFields`
fetch `total/50 + 1` pages (truncating division), one page more than
`ceil(total/50)` whenever `total` is a positive multiple of 50; in every
variant the concatenation of the returned pages is exactly the full result
set, so its length is `total`. -/
theorem pagination_pages_and_concat {α : Type} (data : List α) :
    getTasksByStatus data = (max 1 (ceilDiv data.length 50), data)
    ∧ getTasksByStatusAndFields data = (data.length / 50 + 1, data)
    ∧ getTasksByFields data = (data.length / 50 + 1, data) :=
  ⟨getTasksByStatus_eq data, filteredTasks_zero data, filteredTasks_zero data⟩

/-- C2 counterexample: at `total = 50` the filtered listing fetches 2 pages
although `ceil(50/50) = 1`, refuting the claimed page count of exactly
`ceil(total/p)`.  (The concatenation length is still 50.) -/
theorem pagination_extra_page_at_fifty :
    (getTasksByFields (List.replicate 50 (0 : Nat))).1 = 2
    ∧ ceilDiv (List.replicate 50 (0 : Nat)).length 50 = 1
    ∧ (getTasksByFields (List.replicate 50 (0 : Nat))).2.length = 50 := by
  have h := filteredTasks_zero (List.replicate 50 (0 : Nat))
  refine ⟨?_, by decide, ?_⟩
  · show (filteredTasksLoop (List.replicate 50 (0 : Nat)) 0).1 = 2
    rw [h]
    decide
  · show (filteredTasksLoop (List.replicate 50 (0 : Nat)) 0).2.length = 50
    rw [h]
    decide

/-! ### Claim C8: the UpdateFields payload -/

/-- The `payload` component of `Task.updateFields` is the constructed
request-field list, whatever the response is. -/
theorem updateFields_payload_def (t : Task) (fields : List TaskField)
    (resp : MutationResponse) :
    (Task.updateFields t fields resp).payload = updateTaskRequestFields fields := by
  unfold Task.updateFields
  split_ifs <;> rfl

/-- C8: the `UpdateFields` request payload has one `{id, value}` entry per
supplied field, and entry `i` carries exactly the id of the `i`-th supplied
field's model field and its value — the supplied order is preserved. -/
theorem updateFields_payload_order (t : Task) (fields : List TaskField)
    (resp : MutationResponse) :
    (Task.updateFields t fields resp).payload.length = fields.length
    ∧ ∀ i : Nat, ((Task.updateFields t fields resp).payload)[i]? =
        (fields[i]?).map
          (fun f => (⟨f.modelField.id, f.value⟩ : UpdateTaskRequestField)) := by
  rw [updateFields_payload_def, updateTaskRequestFields_eq_map]
  exact ⟨List.length_map _ _, fun i => List.getElem?_map _ _ _⟩

/-! ### Fetch-phase count invariants -/

theorem getModelFetch_counts (now : Nat) (cache : List (String × ModelCache))
    (resp : TaskModelResponse) (title : String) :
    (getModelFetch now cache resp title).fetches = 1
    ∧ (getModelFetch now cache resp title).takes = 1 := by
  unfold getModelFetch
  split_ifs
  · exact ⟨rfl, rfl⟩
  · dsimp only
    constructor <;> (split <;> rfl)

theorem getCustomFieldOptionIdFetch_counts (now : Nat)
    (cache0 : List (String × ModelCustomFieldCache))
    (resp : List CustomFieldsResponse) (fieldId value : String) :
    (getCustomFieldOptionIdFetch now cache0 resp fieldId value).fetches = 1
    ∧ (getCustomFieldOptionIdFetch now cache0 resp fieldId value).takes = 0 := by
  unfold getCustomFieldOptionIdFetch
  dsimp only
  constructor <;> (split <;> (try rfl) <;> (split <;> rfl))

theorem getCustomFieldValueFetch_counts (now : Nat)
    (cache0 : List (String × ModelCustomFieldCache))
    (resp : List CustomFieldsResponse) (fieldId optionId : String) :
    (getCustomFieldValueFetch now cache0 resp fieldId optionId).fetches = 1
    ∧ (getCustomFieldValueFetch now cache0 resp fieldId optionId).takes = 0 := by
  unfold getCustomFieldValueFetch
  dsimp only
  constructor <;> (split <;> (try rfl) <;> (split <;> rfl))

theorem getAssigneeFetch_counts (now : Nat)
    (cache0 : List (String × ModelAssigneeCache))
    (resp : List RoutingResponse) (statusId name : String) :
    (getAssigneeFetch now cache0 resp statusId name).fetches = 1
    ∧ (getAssigneeFetch now cache0 resp statusId name).takes = 0 := by
  unfold getAssigneeFetch
  dsimp only
  constructor <;> (split <;> (try rfl) <;> (split <;> rfl))

/-! ### Claim C1: cache hits -/

/-- C1 (amended): a lookup that finds a live (non-expired) cache entry and —
for the custom-field and assignee caches — finds the requested target inside
that entry performs zero network fetches, takes zero rate-limiter units, and
returns exactly the cached data, leaving the cache unchanged.  (A live
custom-field or assignee entry that lacks the requested target is instead
evicted and refreshed over the network, see the counterexample.) -/
theorem cache_hit_zero_network :
    (∀ (now : Nat) cache resp title c,
       mapFind cache title = some c →
       now < c.lastUpdatedAt + modelCacheTime →
       getModelByTitle now cache resp title = ⟨.ok c.model, cache, 0, 0⟩)
    ∧ (∀ (now : Nat) cache resp field value c o,
       mapFind cache field.id = some c →
       now < c.lastUpdatedAt + modelCacheTime →
       c.customFieldOptions.find? (fun x => x.value == value) = some o →
       getCustomFieldOptionId now cache resp field value = ⟨.ok o.id, cache, 0, 0⟩)
    ∧ (∀ (now : Nat) cache resp field optionId c o,
       mapFind cache field.id = some c →
       now < c.lastUpdatedAt + modelCacheTime →
       c.customFieldOptions.find? (fun x => x.id == optionId) = some o →
       getCustomFieldValue now cache resp field optionId
         = ⟨.ok o.value, cache, 0, 0⟩)
    ∧ (∀ (now : Nat) cache resp status name c a,
       mapFind cache status.id = some c →
       now < c.lastUpdatedAt + modelCacheTime →
       c.modelAssignees.find? (fun x => x.name == name) = some a →
       getAssignee now cache resp status name = ⟨.ok a, cache, 0, 0⟩) := by
  refine ⟨?_, ?_, ?_, ?_⟩
  · intro now cache resp title c h1 h2
    unfold getModelByTitle
    rw [h1]
    exact if_pos h2
  · intro now cache resp field value c o h1 h2 h3
    unfold getCustomFieldOptionId
    rw [h1]
    simp only [if_pos h2, h3]
  · intro now cache resp field optionId c o h1 h2 h3
    unfold getCustomFieldValue
    rw [h1]
    simp only [if_pos h2, h3]
  · intro now cache resp status name c a h1 h2 h3
    unfold getAssignee
    rw [h1]
    simp only [if_pos h2, h3]

/-- C1 witness: concrete live cache hits for the model-title cache, both
custom-field lookups and the assignee cache, each with zero fetches and
zero limiter takes. -/
theorem cache_hit_zero_network_witness :
    getModelByTitle 200 [("Orders", ⟨100, ⟨"m1", [], []⟩⟩)] ⟨[], "", ""⟩ "Orders"
      = ⟨.ok ⟨"m1", [], []⟩, [("Orders", ⟨100, ⟨"m1", [], []⟩⟩)], 0, 0⟩
    ∧ getCustomFieldOptionId 200 [("f1", ⟨100, [⟨"o1", "Red"⟩]⟩)] []
        ⟨"f1", "color", "active"⟩ "Red"
      = ⟨.ok "o1", [("f1", ⟨100, [⟨"o1", "Red"⟩]⟩)], 0, 0⟩
    ∧ getCustomFieldValue 200 [("f1", ⟨100, [⟨"o1", "Red"⟩]⟩)] []
        ⟨"f1", "color", "active"⟩ "o1"
      = ⟨.ok "Red", [("f1", ⟨100, [⟨"o1", "Red"⟩]⟩)], 0, 0⟩
    ∧ getAssignee 200 [("s1", ⟨100, [⟨7, "Alice", "user"⟩]⟩)] []
        ⟨"s1", "new", false, "t"⟩ "Alice"
      = ⟨.ok ⟨7, "Alice", "user"⟩, [("s1", ⟨100, [⟨7, "Alice", "user"⟩]⟩)], 0, 0⟩ :=
  ⟨cache_hit_zero_network.1 200 [("Orders", ⟨100, ⟨"m1", [], []⟩⟩)] ⟨[], "", ""⟩
     "Orders" ⟨100, ⟨"m1", [], []⟩⟩ rfl (by decide),
   cache_hit_zero_network.2.1 200 [("f1", ⟨100, [⟨"o1", "Red"⟩]⟩)] []
     ⟨"f1", "color", "active"⟩ "Red" ⟨100, [⟨"o1", "Red"⟩]⟩ ⟨"o1", "Red"⟩
     rfl (by decide) rfl,
   cache_hit_zero_network.2.2.1 200 [("f1", ⟨100, [⟨"o1", "Red"⟩]⟩)] []
     ⟨"f1", "color", "active"⟩ "o1" ⟨100, [⟨"o1", "Red"⟩]⟩ ⟨"o1", "Red"⟩
     rfl (by decide) rfl,
   cache_hit_zero_network.2.2.2 200 [("s1", ⟨100, [⟨7, "Alice", "user"⟩]⟩)] []
     ⟨"s1", "new", false, "t"⟩ "Alice" ⟨100, [⟨7, "Alice", "user"⟩]⟩
     ⟨7, "Alice", "user"⟩ rfl (by decide) rfl⟩

/-- C1 counterexample: a live custom-field cache entry whose option list does
not contain the requested value is not a no-network hit — the live entry is
evicted and one network fetch is issued, refuting the claim that every
lookup under a live key performs zero network calls. -/
theorem cache_live_entry_still_fetches :
    (200 : Nat) < 100 + modelCacheTime
    ∧ (getCustomFieldOptionId 200 [("f1", ⟨100, []⟩)] []
        ⟨"f1", "color", "active"⟩ "Red").fetches = 1
    ∧ mapFind (getCustomFieldOptionId 200 [("f1", ⟨100, []⟩)] []
        ⟨"f1", "color", "active"⟩ "Red").cache "f1" = none := by
  refine ⟨by decide, by decide, by decide⟩

/-! ### Claim C7: stale-entry eviction -/

/-- C7: a lookup that finds an expired cache entry evicts it before the
network refresh: the run is indistinguishable from a run on the cache with
the key erased (so no stale data can leak into the result), exactly one
network refresh happens, and the cache handed to the fetch phase no longer
binds the key. -/
theorem stale_entry_evicted_before_refresh :
    (∀ (now : Nat) cache resp title c,
       mapFind cache title = some c →
       ¬ now < c.lastUpdatedAt + modelCacheTime →
       getModelByTitle now cache resp title
         = getModelByTitle now (mapErase cache title) resp title
       ∧ (getModelByTitle now cache resp title).fetches = 1
       ∧ mapFind (mapErase cache title) title = none)
    ∧ (∀ (now : Nat) cache resp field value c,
       mapFind cache field.id = some c →
       ¬ now < c.lastUpdatedAt + modelCacheTime →
       getCustomFieldOptionId now cache resp field value
         = getCustomFieldOptionId now (mapErase cache field.id) resp field value
       ∧ (getCustomFieldOptionId now cache resp field value).fetches = 1
       ∧ mapFind (mapErase cache field.id) field.id = none)
    ∧ (∀ (now : Nat) cache resp status name c,
       mapFind cache status.id = some c →
       ¬ now < c.lastUpdatedAt + modelCacheTime →
       getAssignee now cache resp status name
         = getAssignee now (mapErase cache status.id) resp status name
       ∧ (getAssignee now cache resp status name).fetches = 1
       ∧ mapFind (mapErase cache status.id) status.id = none) := by
  refine ⟨?_, ?_, ?_⟩
  · intro now cache resp title c h1 h2
    have he := mapFind_erase cache title
    have hrun : getModelByTitle now cache resp title
        = getModelFetch now (mapErase cache title) resp title := by
      unfold getModelByTitle
      rw [h1]
      exact if_neg h2
    have hrun' : getModelByTitle now (mapErase cache title) resp title
        = getModelFetch now (mapErase cache title) resp title := by
      unfold getModelByTitle
      rw [he]
    refine ⟨hrun.trans hrun'.symm, ?_, he⟩
    rw [hrun]
    exact (getModelFetch_counts now (mapErase cache title) resp title).1
  · intro now cache resp field value c h1 h2
    have he := mapFind_erase cache field.id
    have hrun : getCustomFieldOptionId now cache resp field value
        = getCustomFieldOptionIdFetch now (mapErase cache field.id) resp
            field.id value := by
      unfold getCustomFieldOptionId
      rw [h1]
      exact if_neg h2
    have hrun' : getCustomFieldOptionId now (mapErase cache field.id) resp
          field value
        = getCustomFieldOptionIdFetch now (mapErase cache field.id) resp
            field.id value := by
      unfold getCustomFieldOptionId
      rw [he]
    refine ⟨hrun.trans hrun'.symm, ?_, he⟩
    rw [hrun]
    exact (getCustomFieldOptionIdFetch_counts now (mapErase cache field.id)
      resp field.id value).1
  · intro now cache resp status name c h1 h2
    have he := mapFind_erase cache status.id
    have hrun : getAssignee now cache resp status name
        = getAssigneeFetch now (mapErase cache status.id) resp status.id name := by
      unfold getAssignee
      rw [h1]
      exact if_neg h2
    have hrun' : getAssignee now (mapErase cache status.id) resp status name
        = getAssigneeFetch now (mapErase cache status.id) resp status.id name := by
      unfold getAssignee
      rw [he]
    refine ⟨hrun.trans hrun'.symm, ?_, he⟩
    rw [hrun]
    exact (getAssigneeFetch_counts now (mapErase cache status.id) resp
      status.id name).1

/-- C7 witness: a concrete expired model-cache entry (stored at 100, looked
up at 2000 > 100 + 1800): the run equals the run on the erased cache, issues
one fetch, and the pre-fetch cache no longer binds the title. -/
theorem stale_entry_evicted_witness :
    getModelByTitle 2000 [("Orders", ⟨100, ⟨"m1", [], []⟩⟩)] ⟨[], "", ""⟩ "Orders"
      = getModelByTitle 2000
          (mapErase [("Orders", ⟨100, ⟨"m1", [], []⟩⟩)] "Orders") ⟨[], "", ""⟩
          "Orders"
    ∧ (getModelByTitle 2000 [("Orders", ⟨100, ⟨"m1", [], []⟩⟩)] ⟨[], "", ""⟩
        "Orders").fetches = 1
    ∧ mapFind
        (mapErase [("Orders", (⟨100, ⟨"m1", [], []⟩⟩ : ModelCache))] "Orders")
        "Orders" = none :=
  stale_entry_evicted_before_refresh.1 2000
    [("Orders", ⟨100, ⟨"m1", [], []⟩⟩)] ⟨[], "", ""⟩ "Orders"
    ⟨100, ⟨"m1", [], []⟩⟩ rfl (by decide)

/-! ### Claim C4: rate-limiter consumption -/

/-- Each iteration of the `GetTasksByStatus` loop pairs its page fetch with
exactly one limiter take, whatever the remote side answers. -/
theorem statusRunLoop_takes_eq_fetches {α : Type}
    (pages : Nat → TasksPageResponse α) :
    ∀ fuel page maxPages,
      (getTasksByStatusRunLoop pages page maxPages fuel).takes
        = (getTasksByStatusRunLoop pages page maxPages fuel).fetches := by
  intro fuel
  induction fuel with
  | zero => intro page maxPages; rfl
  | succ fuel ih =>
    intro page maxPages
    unfold getTasksByStatusRunLoop
    dsimp only
    split_ifs
    · rfl
    · split
      · dsimp only
        rw [ih]
      · dsimp only
        rw [ih]
    · rfl

/-- Each iteration of the filtered listing loop pairs its page fetch with
exactly one limiter take, whatever the remote side answers. -/
theorem filteredRunLoop_takes_eq_fetches {α : Type}
    (pages : Nat → TasksPageResponse α) :
    ∀ fuel page,
      (filteredTasksRunLoop pages page fuel).takes
        = (filteredTasksRunLoop pages page fuel).fetches := by
  intro fuel
  induction fuel with
  | zero => intro page; rfl
  | succ fuel ih =>
    intro page
    unfold filteredTasksRunLoop
    dsimp only
    split_ifs
    · rfl
    · rfl
    · rfl
    · split
      · dsimp only
        rw [ih]
      · dsimp only
        rw [ih]

/-- Every `GetTaskById` run issues exactly one fetch and takes exactly one
limiter unit. -/
theorem getTaskById_counts (m : Model) (parseTime : String → Option Nat)
    (resp : List TaskRowResponse) :
    (getTaskById m parseTime resp).takes = 1
    ∧ (getTaskById m parseTime resp).fetches = 1 := by
  unfold getTaskById
  split
  · exact ⟨rfl, rfl⟩
  · constructor <;> (split <;> rfl)

/-- C4 (amended): every outbound call of `GetModelByTitle` (one unit per
fetch, none on a cache hit), each page fetch of the task-listing loops,
`GetTaskById`, `CreateTask` (one unit for the POST and one for its
`GetTaskById` re-fetch), `UpdateFields` and `UpdateStatus` consumes exactly
one rate-limiter unit per request; but the custom-field available-values
fetches (`GetCustomFieldOptionId`/`GetCustomFieldValue`), the routing-rules
fetch (`GetAssignee`) and `AddComment` never take a limiter unit — their
request code has no `apiLimiter.Take()`. -/
theorem rate_limiter_units :
    (∀ (now : Nat) cache resp title,
       (getModelByTitle now cache resp title).takes
         = (getModelByTitle now cache resp title).fetches)
    ∧ (∀ (α : Type) (pages : Nat → TasksPageResponse α) (page maxPages fuel : Nat),
       (getTasksByStatusRunLoop pages page maxPages fuel).takes
         = (getTasksByStatusRunLoop pages page maxPages fuel).fetches)
    ∧ (∀ (α : Type) (pages : Nat → TasksPageResponse α) (page fuel : Nat),
       (filteredTasksRunLoop pages page fuel).takes
         = (filteredTasksRunLoop pages page fuel).fetches)
    ∧ (∀ m parseTime resp, (getTaskById m parseTime resp).takes = 1
         ∧ (getTaskById m parseTime resp).fetches = 1)
    ∧ (∀ m parseTime assignee fields resp taskResp,
       (createTask m parseTime assignee fields resp taskResp).takes
         = (createTask m parseTime assignee fields resp taskResp).fetches)
    ∧ (∀ t fields resp, (Task.updateFields t fields resp).takes = 1)
    ∧ (∀ t status resp, (Task.updateStatus t status resp).takes = 1)
    ∧ (∀ (now : Nat) cache resp field value,
       (getCustomFieldOptionId now cache resp field value).takes = 0)
    ∧ (∀ (now : Nat) cache resp field optionId,
       (getCustomFieldValue now cache resp field optionId).takes = 0)
    ∧ (∀ (now : Nat) cache resp status name,
       (getAssignee now cache resp status name).takes = 0)
    ∧ (∀ t msg resp, (Task.addComment t msg resp).takes = 0) := by
  refine ⟨?_, ?_, ?_, ?_, ?_, ?_, ?_, ?_, ?_, ?_, ?_⟩
  · intro now cache resp title
    unfold getModelByTitle
    split
    · split_ifs
      · rfl
      · exact ((getModelFetch_counts _ _ _ _).2).trans
          ((getModelFetch_counts _ _ _ _).1).symm
    · exact ((getModelFetch_counts _ _ _ _).2).trans
        ((getModelFetch_counts _ _ _ _).1).symm
  · intro α pages page maxPages fuel
    exact statusRunLoop_takes_eq_fetches pages fuel page maxPages
  · intro α pages page fuel
    exact filteredRunLoop_takes_eq_fetches pages fuel page
  · intro m parseTime resp
    exact getTaskById_counts m parseTime resp
  · intro m parseTime assignee fields resp taskResp
    unfold createTask
    dsimp only
    split_ifs
    · rfl
    · rw [(getTaskById_counts m parseTime taskResp).1,
        (getTaskById_counts m parseTime taskResp).2]
  · intro t fields resp
    unfold Task.updateFields
    dsimp only
    split_ifs <;> rfl
  · intro t status resp
    unfold Task.updateStatus
    split_ifs <;> rfl
  · intro now cache resp field value
    unfold getCustomFieldOptionId
    split
    · split_ifs
      · split
        · rfl
        · exact (getCustomFieldOptionIdFetch_counts _ _ _ _ _).2
      · exact (getCustomFieldOptionIdFetch_counts _ _ _ _ _).2
    · exact (getCustomFieldOptionIdFetch_counts _ _ _ _ _).2
  · intro now cache resp field optionId
    unfold getCustomFieldValue
    split
    · split_ifs
      · split
        · rfl
        · exact (getCustomFieldValueFetch_counts _ _ _ _ _).2
      · exact (getCustomFieldValueFetch_counts _ _ _ _ _).2
    · exact (getCustomFieldValueFetch_counts _ _ _ _ _).2
  · intro now cache resp status name
    unfold getAssignee
    split
    · split_ifs
      · split
        · rfl
        · exact (getAssigneeFetch_counts _ _ _ _ _).2
      · exact (getAssigneeFetch_counts _ _ _ _ _).2
    · exact (getAssigneeFetch_counts _ _ _ _ _).2
  · intro t msg resp
    unfold Task.addComment
    split_ifs <;> rfl

/-- C4 counterexample: concrete non-cache-hit runs of the custom-field
available-values fetch and the routing-rules fetch issue one network request
yet take zero limiter units, and `AddComment` issues its request with zero
takes — refuting the claim that every such call consumes exactly one unit. -/
theorem fetch_without_limiter_take :
    (getCustomFieldOptionId 0 [] [⟨"", "", [⟨"o1", "Red"⟩]⟩]
        ⟨"f1", "color", "active"⟩ "Red").fetches = 1
    ∧ (getCustomFieldOptionId 0 [] [⟨"", "", [⟨"o1", "Red"⟩]⟩]
        ⟨"f1", "color", "active"⟩ "Red").takes = 0
    ∧ (getAssignee 0 [] [⟨"", "", "s1", [⟨7, "Alice", "user"⟩]⟩]
        ⟨"s1", "new", false, "t"⟩ "Alice").fetches = 1
    ∧ (getAssignee 0 [] [⟨"", "", "s1", [⟨7, "Alice", "user"⟩]⟩]
        ⟨"s1", "new", false, "t"⟩ "Alice").takes = 0
    ∧ (Task.addComment ⟨⟨"s1", "new", false, "t"⟩, 1, "IDX-1", 0, 0, 0, []⟩
        "hello" ⟨200, "", ""⟩).takes = 0 := by
  refine ⟨by decide, by decide, by decide, by decide, by decide⟩

/-! ### Claim C5: the error envelope short-circuits success -/

/-- Repopulating the model cache from listing items whose names all differ
from `title` leaves the lookup of `title` unchanged. -/
theorem modelCache_fold_find_ne (now : Nat) (data : List TaskModelItem)
    (title : String) (h : ∀ item ∈ data, item.name ≠ title) :
    ∀ cache : List (String × ModelCache),
      mapFind (data.foldl
        (fun acc item => mapInsert acc item.name ⟨now, modelOfItem item⟩) cache)
        title = mapFind cache title := by
  induction data with
  | nil => intro cache; rfl
  | cons item data ih =>
    intro cache
    rw [List.foldl_cons,
      ih (fun x hx => h x (List.mem_cons_of_mem item hx)),
      mapFind_insert_ne]
    exact fun hh => h item (List.mem_cons_self item data) hh.symm

/-- C9: `GetModelByTitle` matches the requested title against the listed
model names exactly and case-sensitively: with the title absent from the
cache, a well-formed listing response whose model names all differ from the
title — even only in letter case — yields `MODEL_NOT_FOUND`.  In contrast,
`GetStatus` matches case-insensitively: any status whose name is
`EqualFold`-equal to the requested title makes the lookup succeed. -/
theorem modelTitle_exact_match :
    (∀ (now : Nat) cache resp title,
       mapFind cache title = none →
       resp.code.length = 0 →
       (∀ item ∈ resp.data, item.name ≠ title) →
       (getModelByTitle now cache resp title).result = .error .modelNotFound)
    ∧ (∀ (m : Model) (title : String) (p : String × ModelStatus),
       p ∈ m.statuses → eqFold p.2.name title = true →
       ∃ s, m.getStatus title = .ok s ∧ eqFold s.name title = true) := by
  constructor
  · intro now cache resp title h1 h2 h3
    unfold getModelByTitle
    rw [h1]
    dsimp only
    unfold getModelFetch
    rw [if_neg (by omega)]
    dsimp only
    rw [modelCache_fold_find_ne now resp.data title h3 cache, h1]
  · intro m title p hp hq
    have hs : (m.statuses.find? (fun x => eqFold x.2.name title)).isSome :=
      List.find?_isSome.2 ⟨p, hp, hq⟩
    obtain ⟨r, hr⟩ := Option.isSome_iff_exists.1 hs
    have hq' : eqFold r.2.name title = true := by
      have hfold := List.find?_some hr
      simpa using hfold
    refine ⟨r.2, ?_, hq'⟩
    unfold Model.getStatus
    rw [hr]

/-- C9 witness: the Cyrillic title `заказ` differs from the listed model
name `Заказ` only in letter case and fails with `MODEL_NOT_FOUND`, while
`GetStatus` succeeds on a title differing from the status name only in
case. -/
theorem modelTitle_exact_match_witness :
    (getModelByTitle 0 [] ⟨[⟨"m1", "Заказ", [], []⟩], "", ""⟩ "заказ").result
      = .error .modelNotFound
    ∧ ∃ s, Model.getStatus
        ⟨"m1", [("s1", ⟨"s1", "New order", false, "t"⟩)], []⟩ "NEW ORDER"
        = .ok s ∧ eqFold s.name "NEW ORDER" = true :=
  ⟨modelTitle_exact_match.1 0 [] ⟨[⟨"m1", "Заказ", [], []⟩], "", ""⟩ "заказ"
     rfl rfl (by decide),
   modelTitle_exact_match.2 ⟨"m1", [("s1", ⟨"s1", "New order", false, "t"⟩)], []⟩
     "NEW ORDER" ("s1", ⟨"s1", "New order", false, "t"⟩) (by decide) (by decide)⟩

/-! ### Claim C10: GetCustomField resolves into a returned copy only -/

/-- The task component of a `Task.GetCustomField` run is always the original
task: the source writes the resolved value into the `range` loop copy. -/
theorem getCustomField_task_eq (t : Task) (mf : ModelField) (now : Nat)
    (cache : List (String × ModelCustomFieldCache))
    (resp : List CustomFieldsResponse) :
    (Task.getCustomField t mf now cache resp).task = t := by
  unfold Task.getCustomField
  split
  · split
    · dsimp only
      split <;> rfl
    · rfl
  · rfl

/-- C10: `GetCustomField` never mutates the task — the task and its fields
list are unchanged by the call, so a subsequent `GetField` still returns the
raw stored value — while the field returned by `GetCustomField` itself is a
copy carrying the display value resolved through the model's custom-field
cache. -/
theorem getCustomField_frame :
    (∀ (t : Task) (mf : ModelField) (now : Nat) cache resp,
       (Task.getCustomField t mf now cache resp).task = t
       ∧ ((Task.getCustomField t mf now cache resp).task).fields = t.fields
       ∧ ((Task.getCustomField t mf now cache resp).task).getField mf
           = t.getField mf)
    ∧ (∀ (t : Task) (mf : ModelField) (now : Nat) cache resp field raw v,
       t.fields.find? (fun f => f.modelField.id == mf.id) = some field →
       field.value = .str raw →
       (getCustomFieldValue now cache resp mf raw).result = .ok v →
       (Task.getCustomField t mf now cache resp).result
         = .ok { field with value := .str v }) := by
  constructor
  · intro t mf now cache resp
    have h := getCustomField_task_eq t mf now cache resp
    exact ⟨h, by rw [h], by rw [h]⟩
  · intro t mf now cache resp field raw v h1 h2 h3
    unfold Task.getCustomField
    rw [h1]
    dsimp only
    rw [h2]
    dsimp only
    rw [h3]

/-- C10 witness: a concrete task stores the raw option id `o1`;
`GetCustomField` returns a field copy carrying the resolved display value
`Red`, while the task itself and its `GetField` result still carry `o1`. -/
theorem getCustomField_frame_witness :
    (Task.getCustomField
        ⟨⟨"s1", "new", false, "t"⟩, 1, "IDX-1", 0, 0, 0,
          [⟨⟨"f1", "color", "active"⟩, .str "o1", "st"⟩]⟩
        ⟨"f1", "color", "active"⟩ 200 [("f1", ⟨100, [⟨"o1", "Red"⟩]⟩)] []).task
      = ⟨⟨"s1", "new", false, "t"⟩, 1, "IDX-1", 0, 0, 0,
          [⟨⟨"f1", "color", "active"⟩, .str "o1", "st"⟩]⟩
    ∧ (Task.getCustomField
        ⟨⟨"s1", "new", false, "t"⟩, 1, "IDX-1", 0, 0, 0,
          [⟨⟨"f1", "color", "active"⟩, .str "o1", "st"⟩]⟩
        ⟨"f1", "color", "active"⟩ 200 [("f1", ⟨100, [⟨"o1", "Red"⟩]⟩)] []).result
      = .ok ⟨⟨"f1", "color", "active"⟩, .str "Red", "st"⟩
    ∧ Task.getField
        ⟨⟨"s1", "new", false, "t"⟩, 1, "IDX-1", 0, 0, 0,
          [⟨⟨"f1", "color", "active"⟩, .str "o1", "st"⟩]⟩
        ⟨"f1", "color", "active"⟩
      = .ok ⟨⟨"f1", "color", "active"⟩, .str "o1", "st"⟩ :=
  ⟨(getCustomField_frame.1
      ⟨⟨"s1", "new", false, "t"⟩, 1, "IDX-1", 0, 0, 0,
        [⟨⟨"f1", "color", "active"⟩, .str "o1", "st"⟩]⟩
      ⟨"f1", "color", "active"⟩ 200 [("f1", ⟨100, [⟨"o1", "Red"⟩]⟩)] []).1,
   getCustomField_frame.2
     ⟨⟨"s1", "new", false, "t"⟩, 1, "IDX-1", 0, 0, 0,
       [⟨⟨"f1", "color", "active"⟩, .str "o1", "st"⟩]⟩
     ⟨"f1", "color", "active"⟩ 200 [("f1", ⟨100, [⟨"o1", "Red"⟩]⟩)] []
     ⟨⟨"f1", "color", "active"⟩, .str "o1", "st"⟩ "o1" "Red"
     rfl rfl (by decide),
   by decide⟩

end Neaktor
